import Mathlib

/-!
Verification of the soundtrack synthesis pipeline (PolicyEngine/thanksgiving-2025).

The Python sources are shallowly embedded over exact rationals: a mono audio
buffer is a `List ℚ`, numpy elementwise operations become `List.map`/`List.zipWith`,
numpy slice assignment becomes an explicit helper that models Python's negative-index
resolution and returns `none` where numpy raises a broadcast `ValueError`.
External collaborators (numpy's `sin`/`exp`/`tanh`, `np.pi`, and scipy's
`butter`+`filtfilt` filters) enter the embedded functions as explicit parameters.
-/

namespace Soundtrack

/-- A mono audio buffer: an ordered list of samples, exact rationals standing in
for the floats of the source. -/
abbrev Buf := List ℚ

/-- Python `int(...)` applied to a float value: truncation toward zero. -/
def pyInt (q : ℚ) : ℤ := if 0 ≤ q then ⌊q⌋ else ⌈q⌉

/-- Resolve one (possibly negative) Python slice endpoint against a list of
length `n`: negative indices count from the end, and everything is clamped
into `[0, n]`. -/
def pyIdx (i : ℤ) (n : ℕ) : ℕ :=
  if i < 0 then (max 0 ((n : ℤ) + i)).toNat else min i.toNat n

/-- `np.sign` on a scalar. -/
def npSign (x : ℚ) : ℚ := if 0 < x then 1 else if x < 0 then -1 else 0

/-- `np.abs` on a scalar, written with an explicit comparison so that concrete
values reduce inside the kernel. -/
def pyAbs (x : ℚ) : ℚ := if x < 0 then -x else x

/-- Binary maximum written with an explicit comparison so that concrete values
reduce inside the kernel. -/
def qmax (a b : ℚ) : ℚ := if a ≤ b then b else a

/-- `np.linspace a b n`: `n` evenly spaced points from `a` to `b` inclusive
(`[a]` for `n = 1`, empty for `n = 0`). -/
def linspace (a b : ℚ) (n : ℕ) : List ℚ :=
  if n = 0 then []
  else if n = 1 then [a]
  else (List.range n).map (fun i : ℕ => a + (b - a) * (i : ℚ) / ((n : ℚ) - 1))

/-- `np.max(np.abs(buf))`, the peak amplitude of a buffer (0 for the empty list,
which numpy would reject; the claims only exercise nonempty buffers). -/
def peak (b : Buf) : ℚ := b.foldr (fun x m => qmax (pyAbs x) m) 0

/-- Running-sum helper for `cumsum`. -/
def cumsumFrom (acc : ℚ) : Buf → Buf
  | [] => []
  | x :: xs => (acc + x) :: cumsumFrom (acc + x) xs

/-- `np.cumsum`. -/
def cumsum (l : Buf) : Buf := cumsumFrom 0 l

/-- numpy slice assignment `l[s:e] = repl` (array right-hand side): Python slice
resolution of `s` and `e`, then the assignment succeeds only when the resolved
slice length equals `repl`'s length; otherwise numpy raises a broadcast
`ValueError`, modelled as `none`. -/
def sliceAssign (l : Buf) (s e : ℤ) (repl : Buf) : Option Buf :=
  if pyIdx e l.length - pyIdx s l.length = repl.length then
    some (l.take (pyIdx s l.length) ++ repl ++
      l.drop (pyIdx s l.length + (pyIdx e l.length - pyIdx s l.length)))
  else none

/-- numpy slice assignment `l[s:e] = v` with a scalar right-hand side: the scalar
broadcasts to any slice length, so this never raises. -/
def sliceAssignScalar (l : Buf) (s e : ℤ) (v : ℚ) : Buf :=
  l.take (pyIdx s l.length) ++
    List.replicate (pyIdx e l.length - pyIdx s l.length) v ++
    l.drop (pyIdx s l.length + (pyIdx e l.length - pyIdx s l.length))

/-- numpy in-place slice multiply `l[s:e] *= fac` with an array factor: succeeds
only when the resolved slice length equals `fac`'s length (broadcast rule),
otherwise `none` for the `ValueError`. -/
def sliceMul (l : Buf) (s e : ℤ) (fac : Buf) : Option Buf :=
  if pyIdx e l.length - pyIdx s l.length = fac.length then
    some (l.take (pyIdx s l.length) ++
      List.zipWith (· * ·)
        ((l.drop (pyIdx s l.length)).take (pyIdx e l.length - pyIdx s l.length)) fac ++
      l.drop (pyIdx s l.length + (pyIdx e l.length - pyIdx s l.length)))
  else none

/-- In-place additive slice accumulate `l[start:start+payload.length] += payload`,
used at call sites where the slice is known to fit inside the list. -/
def sliceAdd (l : Buf) (start : ℕ) (payload : Buf) : Buf :=
  l.take start ++ List.zipWith (· + ·) ((l.drop start).take payload.length) payload
    ++ l.drop (start + payload.length)

/-- Per-sample soft-knee compression as in mix_soundtrack.py lines 45-52 and
create_sample_soundtrack.py lines 290-305: a sample whose magnitude exceeds the
threshold is replaced by `sign(x) * (threshold + (|x| - threshold) / ratio)`,
all other samples pass through. -/
def compressSample (threshold ratio x : ℚ) : ℚ :=
  if threshold < pyAbs x then npSign x * (threshold + (pyAbs x - threshold) / ratio) else x

/-- One soft-knee compression pass over a whole buffer. -/
def compress (threshold ratio : ℚ) (b : Buf) : Buf :=
  b.map (compressSample threshold ratio)

/-- The compression curve at the level of magnitudes: what soft-knee compression
does to `|x|`. -/
def kneeAbs (threshold ratio u : ℚ) : ℚ :=
  if threshold < u then threshold + (u - threshold) / ratio else u

/-- Peak normalization, mix_soundtrack.py line 55 and
create_sample_soundtrack.py line 317: `buffer / np.max(np.abs(buffer)) * targetPeak`. -/
def normalize (b : Buf) (targetPeak : ℚ) : Buf :=
  b.map (fun x => x / peak b * targetPeak)

/-- `SAMPLE_RATE = 44100`, create_sample_soundtrack.py line 16. -/
def SAMPLE_RATE : ℚ := 44100

/-- Attack phase of `apply_envelope` (create_sample_soundtrack.py lines 63-65):
`if attack_samples > 0: envelope[:attack_samples] = np.linspace(0, 1, attack_samples)`.
The slice assignment raises (`none`) when `attack_samples` exceeds the buffer length. -/
def attackStep (attack_samples : ℤ) (env : Buf) : Option Buf :=
  if 0 < attack_samples then
    sliceAssign env 0 attack_samples (linspace 0 1 attack_samples.toNat)
  else some env

/-- Decay phase of `apply_envelope` (create_sample_soundtrack.py lines 67-72):
applied only under the guard `end <= total_samples`, so it never raises for
non-negative attack. -/
def decayStep (attack_samples decay_samples : ℤ) (sustain : ℚ) (env : Buf) : Option Buf :=
  if 0 < decay_samples then
    if attack_samples + decay_samples ≤ (env.length : ℤ) then
      sliceAssign env attack_samples (attack_samples + decay_samples)
        (linspace 1 sustain decay_samples.toNat)
    else some env
  else some env

/-- Sustain phase of `apply_envelope` (create_sample_soundtrack.py lines 74-78):
a scalar slice assignment under the guard `sustain_end <= total_samples`; a scalar
broadcasts, so this phase never raises. -/
def sustainStep (attack_samples decay_samples sustain_samples : ℤ) (sustain : ℚ)
    (env : Buf) : Buf :=
  let sustain_start := attack_samples + decay_samples
  let sustain_end := sustain_start + sustain_samples
  if sustain_end ≤ (env.length : ℤ) then sliceAssignScalar env sustain_start sustain_end sustain
  else env

/-- Release phase of `apply_envelope` (create_sample_soundtrack.py lines 80-83):
`envelope[total_samples - release_samples:] = np.linspace(sustain, 0, release_samples) ** 2`,
applied last and unguarded, so it raises (`none`) when `release_samples` exceeds
the buffer length. -/
def releaseStep (release_samples : ℤ) (sustain : ℚ) (env : Buf) : Option Buf :=
  if 0 < release_samples then
    sliceAssign env ((env.length : ℤ) - release_samples) (env.length : ℤ)
      ((linspace sustain 0 release_samples.toNat).map (fun x => x ^ 2))
  else some env

/-- The ADSR envelope of create_sample_soundtrack.py lines 53-83, for a buffer of
`total` samples: starts from all ones and applies attack, decay, sustain and
release in source order (each phase's slice assignment preserving the length, so
`env.length` inside the later steps equals `total_samples` of the source).
`none` models the numpy broadcast `ValueError` of an unclamped attack or release. -/
def adsrEnvelope (total : ℕ) (attack decay sustain release : ℚ) : Option Buf :=
  let attack_samples := pyInt (attack * SAMPLE_RATE)
  let decay_samples := pyInt (decay * SAMPLE_RATE)
  let release_samples := pyInt (release * SAMPLE_RATE)
  let sustain_samples : ℤ := max 0 ((total : ℤ) - attack_samples - decay_samples - release_samples)
  (attackStep attack_samples (List.replicate total 1)).bind fun env1 =>
    (decayStep attack_samples decay_samples sustain env1).bind fun env2 =>
      releaseStep release_samples sustain
        (sustainStep attack_samples decay_samples sustain_samples sustain env2)

/-- The duration-adjustment prologue of `apply_envelope`
(create_sample_soundtrack.py lines 45-51): with an explicit duration the input is
cut to `audio[:target_len]` (Python slice semantics, so a negative target cuts
from the end) when longer, and zero-padded when not. -/
def adjustLength (audio : Buf) (duration : Option ℚ) : Buf :=
  match duration with
  | none => audio
  | some d =>
    let target_len := pyInt (d * SAMPLE_RATE)
    if target_len < (audio.length : ℤ) then audio.take (pyIdx target_len audio.length)
    else audio ++ List.replicate (target_len.toNat - audio.length) 0

/-- `apply_envelope` (create_sample_soundtrack.py lines 43-85): adjust to the
target duration if one is given, build the ADSR envelope over the adjusted
length, and return `audio * envelope`. `none` models an uncaught numpy
`ValueError` from an envelope phase. -/
def apply_envelope (audio : Buf) (attack decay sustain release : ℚ)
    (duration : Option ℚ) : Option Buf :=
  let audio2 := adjustLength audio duration
  (adsrEnvelope audio2.length attack decay sustain release).map
    (fun env => List.zipWith (· * ·) audio2 env)

/-- Event scheduling of the synth layer generators (generate_melody_layer.py
lines 44-47 and 69; the atmosphere and effects layers use the same pattern):
the fully rendered note (`note_sound * envelope * velocity * 0.12`, of length
`dur`) is accumulated only under the guard `start + dur < len(audio)`; an event
that would run past (or exactly reach) the buffer end is skipped entirely. -/
def scheduleNote (audio : Buf) (start : ℕ) (payload : Buf) : Buf :=
  if start + payload.length < audio.length then sliceAdd audio start payload else audio

/-- Accumulation of a rendered piano sample (create_sample_soundtrack.py lines
273-274): `end = min(start + len(sample), total_samples);
audio[start:end] += sample[:end - start]` — the copy is clipped at the buffer
end and the surviving prefix is still added. -/
def accumulateSample (audio : Buf) (start : ℕ) (sample : Buf) : Buf :=
  let e := min (start + sample.length) audio.length
  sliceAdd audio start (sample.take (e - start))

/-- `expressive_tone` (generate_melody_layer.py lines 7-27). `np.sin` and `np.pi`
enter as the parameters `sinF` and `pi` (external numpy collaborators); `t` is the
sample-time buffer the caller built with `np.linspace`. -/
def expressive_tone (sinF : ℚ → ℚ) (pi : ℚ) (t : Buf) (freq : ℚ)
    (vibrato_rate vibrato_depth : ℚ) : Buf :=
  let vibrato := t.map (fun x => 1 + vibrato_depth * sinF (2 * pi * vibrato_rate * x))
  let modulated_freq := vibrato.map (fun v => freq * v)
  let phase := cumsum (modulated_freq.map (fun f => 2 * pi * f / 44100))
  let detune : ℚ := 3 / 1000
  phase.map (fun p =>
    sinF p + 35 / 100 * sinF (p * 2) + 12 / 100 * sinF (p * 3) + 5 / 100 * sinF (p * 4)
      + 15 / 100 * sinF (p * (1 + detune)) + 15 / 100 * sinF (p * (1 - detune)))

/-- The looping fade of mix_soundtrack.py lines 57-62: the first and last
`int(2.0 * sr)` samples are multiplied in place by squared linear ramps
(`linspace(0,1,fs)**2` and `linspace(1,0,fs)**2`); `none` models the numpy
broadcast error when a fade window does not fit the buffer. -/
def fadeStage (sr : ℚ) (b : Buf) : Option Buf :=
  let fade_samples := pyInt (2 * sr)
  let fade_in := (linspace 0 1 fade_samples.toNat).map (fun x => x ^ 2)
  let fade_out := (linspace 1 0 fade_samples.toNat).map (fun x => x ^ 2)
  (sliceMul b 0 fade_samples fade_in).bind fun m =>
    sliceMul m (-fade_samples) (m.length : ℤ) fade_out

/-- The master tail of mix_soundtrack.py lines 45-62, transcribed in source
order: soft compression (threshold 0.3, ratio 2.5), then master limiting
`compressed / np.max(np.abs(compressed)) * 0.85`, then the looping fade. `sr` is
the sample rate `sr1` read from the bass layer. -/
def masterChain (sr : ℚ) (mixed : Buf) : Option Buf :=
  let threshold : ℚ := 3 / 10
  let ratio : ℚ := 5 / 2
  let compressed := mixed.map (fun x =>
    if threshold < pyAbs x then npSign x * (threshold + (pyAbs x - threshold) / ratio) else x)
  let limited := compressed.map (fun x => x / peak compressed * (85 / 100))
  let fade_samples := pyInt (2 * sr)
  let fade_in := (linspace 0 1 fade_samples.toNat).map (fun x => x ^ 2)
  let fade_out := (linspace 1 0 fade_samples.toNat).map (fun x => x ^ 2)
  (sliceMul limited 0 fade_samples fade_in).bind fun m =>
    sliceMul m (-fade_samples) (m.length : ℤ) fade_out

/-- Modelled from the spec: the stage order the specification prescribes for the
Mixer/Master — Dynamics Processor, then the fade envelope, then peak
normalization as the final stage. Stated only for comparison with
`masterChain`, which is the transcription of the source. -/
def specMasterChain (sr : ℚ) (mixed : Buf) : Option Buf :=
  (fadeStage sr (compress (3 / 10) (5 / 2) mixed)).map (fun m => normalize m (85 / 100))

/-- Soft saturation of create_sample_soundtrack.py line 308:
`np.tanh(audio * 2.5) / 2.5`, with `np.tanh` as the parameter `tanhF`. -/
def saturateStage (tanhF : ℚ → ℚ) (b : Buf) : Buf :=
  b.map (fun x => tanhF (x * (5 / 2)) / (5 / 2))

/-- The fade of create_sample_soundtrack.py lines 310-314: a 2.0 s squared ramp
in and a 2.5 s squared ramp out at the fixed `SAMPLE_RATE`. -/
def sampleFadeStage (b : Buf) : Option Buf :=
  let fade_in := pyInt (2 * SAMPLE_RATE)
  let fade_out := pyInt (5 / 2 * SAMPLE_RATE)
  (sliceMul b 0 fade_in ((linspace 0 1 fade_in.toNat).map (fun x => x ^ 2))).bind fun m =>
    sliceMul m (-fade_out) (m.length : ℤ) ((linspace 1 0 fade_out.toNat).map (fun x => x ^ 2))

/-- The post-processing tail of create_sample_soundtrack.py lines 290-317,
transcribed in source order: heavy compression (0.15, 6.0), second-pass
compression (0.25, 3.0), tanh soft saturation, the long fade in/out, and final
normalization to peak 0.85. -/
def sampleMasterTail (tanhF : ℚ → ℚ) (audio : Buf) : Option Buf :=
  let a1 := compress (15 / 100) 6 audio
  let a2 := compress (25 / 100) 3 a1
  let a3 := a2.map (fun x => tanhF (x * (5 / 2)) / (5 / 2))
  let fade_in := pyInt (2 * SAMPLE_RATE)
  let fade_out := pyInt (5 / 2 * SAMPLE_RATE)
  ((sliceMul a3 0 fade_in ((linspace 0 1 fade_in.toNat).map (fun x => x ^ 2))).bind fun m =>
    sliceMul m (-fade_out) (m.length : ℤ)
      ((linspace 1 0 fade_out.toNat).map (fun x => x ^ 2))).map
    (fun a4 => a4.map (fun x => x / peak a4 * (85 / 100)))

/-- Model of numpy's global pseudo-random state: `np.random.seed(k)` resets the
state to `k`. Only explicit seeding and determinism of the draws matter for the
properties proved, so the state is a natural number. -/
def npSeed (k : ℕ) : ℕ := k

/-- One update of the modelled numpy PRNG state (a linear congruential step
standing in for the Mersenne twister; any deterministic update works for the
properties proved). -/
def npStep (s : ℕ) : ℕ := (1664525 * s + 1013904223) % 4294967296

/-- One modelled draw of `np.random.randn()`: a deterministic rational derived
from the state, together with the advanced state. -/
def npRandn1 (s : ℕ) : ℚ × ℕ :=
  let s2 := npStep s
  (((s2 % 2001 : ℕ) : ℚ) / 1000 - 1, s2)

/-- `np.random.randn(n)`: `n` modelled draws, threading the state. -/
def npRandnList : ℕ → ℕ → Buf × ℕ
  | 0, s => ([], s)
  | n + 1, s =>
    let p := npRandn1 s
    let q := npRandnList n p.2
    (p.1 :: q.1, q.2)

/-- One modelled draw of `np.random.random()` (uniform in `[0,1)`). -/
def npRandom1 (s : ℕ) : ℚ × ℕ :=
  let s2 := npStep s
  (((s2 % 1000 : ℕ) : ℚ) / 1000, s2)

/-- `generate_atmosphere_layer` (generate_atmosphere_layer.py lines 8-60).
The scipy `butter`+`filtfilt` collaborators enter as the buffer transformers
`windLowFilt`, `windHighFilt`, `rustleFilt` and `crackleFilt`; `np.sin`,
`np.exp` and `np.pi` as `sinF`, `expF` and `pi`. `rng` is the incoming global
numpy PRNG state; the function returns the rendered buffer together with the
outgoing state. The body begins with `np.random.seed(123)` (source line 11). -/
def generate_atmosphere_layer (windLowFilt windHighFilt rustleFilt crackleFilt : Buf → Buf)
    (sinF expF : ℚ → ℚ) (pi : ℚ) (duration sample_rate : ℚ) (rng : ℕ) : Buf × ℕ :=
  let n := (pyInt (sample_rate * duration)).toNat
  let t := linspace 0 duration n
  let r0 := npSeed 123
  let wind := npRandnList n r0
  let wind1 := windHighFilt (windLowFilt wind.1)
  let wind_mod := t.map (fun x => 3 / 10 + 2 / 10 * sinF (2 * pi * (15 / 100) * x))
  let audio1 := List.zipWith (· + ·) (List.replicate n 0)
    (List.zipWith (fun w m => w * m * (8 / 100)) wind1 wind_mod)
  let rustled := (List.range 8).foldl (fun (st : Buf × ℕ) i =>
    let u := npRandom1 st.2
    let rustle_start := (pyInt (((i : ℚ) * (3 / 2) + u.1) * sample_rate)).toNat
    let rustle_dur := (pyInt ((8 / 10) * sample_rate)).toNat
    if rustle_start + rustle_dur < n then
      let rustle := npRandnList rustle_dur u.2
      let rustle1 := rustleFilt rustle.1
      let rustle_t := linspace 0 (8 / 10) rustle_dur
      let rustle_env := rustle_t.map (fun x => expF (-x * 4) * sinF (pi * x / (8 / 10)))
      (sliceAdd st.1 rustle_start
        (List.zipWith (fun r e => r * e * (3 / 100)) rustle1 rustle_env), rustle.2)
    else (st.1, u.2)) (audio1, wind.2)
  let warmth := t.map (fun x =>
    (5 / 100 * sinF (2 * pi * 120 * x) + 3 / 100 * sinF (2 * pi * 180 * x))
      * (1 + 3 / 10 * sinF (2 * pi * (5 / 100) * x)))
  let audio3 := List.zipWith (· + ·) rustled.1 warmth
  (List.range 15).foldl (fun (st : Buf × ℕ) _ =>
    let u := npRandom1 st.2
    let crackle_start := (pyInt (u.1 * duration * sample_rate)).toNat
    let crackle_dur := (pyInt ((15 / 100) * sample_rate)).toNat
    if crackle_start + crackle_dur < n then
      let crackle := npRandnList crackle_dur u.2
      let crackle1 := crackleFilt crackle.1
      let crackle_t := linspace 0 (15 / 100) crackle_dur
      let crackle_env := crackle_t.map (fun x => expF (-x * 30))
      (sliceAdd st.1 crackle_start
        (List.zipWith (fun c e => c * e * (4 / 100)) crackle1 crackle_env), crackle.2)
    else (st.1, u.2)) (audio3, rustled.2)

/-- `turkey_gobble` (generate_effects_layer.py lines 8-34): a frequency-wobbled
tone with harmonics, shaped by five Gaussian bursts. -/
def turkey_gobble (sinF expF : ℚ → ℚ) (pi : ℚ) (duration sample_rate : ℚ) : Buf :=
  let n := (pyInt (sample_rate * duration)).toNat
  let t := linspace 0 duration n
  let freq_mod := t.map (fun x => 200 + 150 * sinF (2 * pi * 8 * x))
  let phase := cumsum (freq_mod.map (fun f => 2 * pi * f / sample_rate))
  let gobble := phase.map (fun p => sinF p + 1 / 2 * sinF (2 * p) + 3 / 10 * sinF (3 * p))
  let bursts := t.map (fun x => (List.range 5).foldl (fun acc i =>
    acc + expF (-(((x - duration * ((i : ℚ) + 1 / 2) / 5) / (8 / 100)) ^ 2))) 0)
  List.zipWith (· * ·) gobble bursts

/-- `generate_effects_layer` (generate_effects_layer.py lines 36-107). The scipy
filters enter as `gobbleFilt` and `stepFilt`; `np.sin`, `np.exp`, `np.pi` as
`sinF`, `expF`, `pi`. `rng` is the incoming global numpy PRNG state, returned
advanced; the body begins with `np.random.seed(456)` (source line 39) and only
the footstep loop draws randomness. -/
def generate_effects_layer (gobbleFilt stepFilt : Buf → Buf) (sinF expF : ℚ → ℚ)
    (pi : ℚ) (duration sample_rate : ℚ) (rng : ℕ) : Buf × ℕ :=
  let n := (pyInt (sample_rate * duration)).toNat
  let r0 := npSeed 456
  let audio1 := [(5 / 2 : ℚ), 8].foldl (fun audio gobble_time =>
    let start := (pyInt (gobble_time * sample_rate)).toNat
    let gobble_samples := (pyInt ((8 / 10) * sample_rate)).toNat
    if start + gobble_samples < n then
      let g := gobbleFilt (turkey_gobble sinF expF pi (8 / 10) sample_rate)
      sliceAdd audio start (g.map (fun x => x * (8 / 100)))
    else audio) (List.replicate n 0)
  let audio2 :=
    let start := (pyInt (1 * sample_rate)).toNat
    let chime_dur := (pyInt ((3 / 2) * sample_rate)).toNat
    if start + chime_dur < n then
      let chime_t := linspace 0 (3 / 2) chime_dur
      let chime := chime_t.map (fun x =>
        3 / 10 * sinF (2 * pi * 659 * x)
          + 3 / 10 * sinF (2 * pi * 523 * x) * (if (3 / 10 : ℚ) < x then 1 else 0))
      let chime_env := chime_t.map (fun x => expF (-x * 2))
      sliceAdd audio1 start (List.zipWith (fun c e => c * e * (1 / 10)) chime chime_env)
    else audio1
  let audio3 := [(4 : ℚ), 13 / 2, 10].foldl (fun audio clink_time =>
    let start := (pyInt (clink_time * sample_rate)).toNat
    let clink_dur := (pyInt ((3 / 10) * sample_rate)).toNat
    if start + clink_dur < n then
      let clink_t := linspace 0 (3 / 10) clink_dur
      let clink := clink_t.map (fun x =>
        sinF (2 * pi * 2000 * x) + 1 / 2 * sinF (2 * pi * 3500 * x))
      let clink_env := clink_t.map (fun x => expF (-x * 15))
      sliceAdd audio start (List.zipWith (fun c e => c * e * (5 / 100)) clink clink_env)
    else audio) audio2
  let audio4 := [(11 / 2 : ℚ), 9].foldl (fun audio laugh_time =>
    let start := (pyInt (laugh_time * sample_rate)).toNat
    let laugh_dur := (pyInt (1 * sample_rate)).toNat
    if start + laugh_dur < n then
      let laugh_t := linspace 0 1 laugh_dur
      let laugh := laugh_t.map (fun x => sinF (2 * pi * (300 + 50 * sinF (2 * pi * 5 * x)) * x))
      let laugh_env := laugh_t.map (fun x =>
        sinF (pi * x) * (1 + 3 / 10 * sinF (2 * pi * 4 * x)))
      sliceAdd audio start (List.zipWith (fun l e => l * e * (4 / 100)) laugh laugh_env)
    else audio) audio3
  (List.range 6).foldl (fun (st : Buf × ℕ) i =>
    let step_time : ℚ := 1 / 2 + (i : ℚ) * (4 / 10)
    let start := (pyInt (step_time * sample_rate)).toNat
    let step_dur := (pyInt ((1 / 10) * sample_rate)).toNat
    if start + step_dur < n then
      let s := npRandnList step_dur st.2
      let s1 := stepFilt s.1
      let step_t := linspace 0 (1 / 10) step_dur
      let step_env := step_t.map (fun x => expF (-x * 40))
      (sliceAdd st.1 start (List.zipWith (fun v e => v * e * (3 / 100)) s1 step_env), s.2)
    else st) (audio4, r0)

/-! ## General lemmas about the embedding -/

lemma linspace_length (a b : ℚ) (n : ℕ) : (linspace a b n).length = n := by
  unfold linspace
  split
  · simp [*]
  · split
    · simp [*]
    · rw [List.length_map, List.length_range]

lemma pyIdx_le (i : ℤ) (n : ℕ) : pyIdx i n ≤ n := by
  unfold pyIdx
  split
  · omega
  · omega

lemma pyIdx_of_nonneg (i : ℤ) (n : ℕ) (h0 : 0 ≤ i) (h : i ≤ (n : ℤ)) :
    pyIdx i n = i.toNat := by
  unfold pyIdx
  rw [if_neg (by omega)]
  omega

lemma pyAbs_eq (x : ℚ) : pyAbs x = |x| := by
  unfold pyAbs
  split
  · rw [abs_of_neg (by assumption)]
  · rw [abs_of_nonneg (by linarith [not_lt.1 (by assumption : ¬x < 0)])]

lemma qmax_eq (a b : ℚ) : qmax a b = max a b := by
  unfold qmax
  split
  · rw [max_eq_right (by assumption)]
  · rw [max_eq_left (by linarith [not_le.1 (by assumption : ¬a ≤ b)])]

lemma peak_cons (x : ℚ) (l : Buf) : peak (x :: l) = max |x| (peak l) := by
  show qmax (pyAbs x) (peak l) = max |x| (peak l)
  rw [qmax_eq, pyAbs_eq]

lemma peak_nonneg : ∀ b : Buf, 0 ≤ peak b
  | [] => le_refl 0
  | x :: l => by
    rw [peak_cons]
    exact le_trans (peak_nonneg l) (le_max_right _ _)

lemma peak_map (f g : ℚ → ℚ) (hg0 : g 0 = 0)
    (hmono : ∀ u v : ℚ, 0 ≤ u → u ≤ v → g u ≤ g v)
    (hf : ∀ x, |f x| = g |x|) : ∀ b : Buf, peak (b.map f) = g (peak b)
  | [] => by simpa [peak] using hg0.symm
  | x :: l => by
    rw [List.map_cons, peak_cons, peak_cons, peak_map f g hg0 hmono hf l, hf]
    rcases le_total |x| (peak l) with h | h
    · rw [max_eq_right h, max_eq_right (hmono _ _ (abs_nonneg x) h)]
    · rw [max_eq_left h, max_eq_left (hmono _ _ (peak_nonneg l) h)]

lemma peak_replicate_zero (n : ℕ) : peak (List.replicate n 0) = 0 := by
  induction n with
  | zero => rfl
  | succ m ih => rw [List.replicate_succ, peak_cons, ih]; simp

lemma cumsumFrom_replicate_zero (n : ℕ) :
    cumsumFrom 0 (List.replicate n 0) = List.replicate n 0 := by
  induction n with
  | zero => rfl
  | succ m ih =>
    rw [List.replicate_succ]
    unfold cumsumFrom
    rw [add_zero, ih, ← List.replicate_succ]

lemma cumsum_replicate_zero (n : ℕ) : cumsum (List.replicate n 0) = List.replicate n 0 :=
  cumsumFrom_replicate_zero n

lemma zipWith_mul_replicate_zero (k : ℕ) (fac : Buf) :
    List.zipWith (· * ·) (List.replicate k (0 : ℚ)) fac =
      List.replicate (min k fac.length) 0 := by
  induction k generalizing fac with
  | zero => simp
  | succ m ih =>
    cases fac with
    | nil => simp
    | cons y ys =>
      rw [List.replicate_succ, List.zipWith_cons_cons, ih ys]
      simp [List.replicate_succ, Nat.succ_min_succ]

lemma sliceAssign_length {l : Buf} {s e : ℤ} {r out : Buf}
    (h : sliceAssign l s e r = some out) : out.length = l.length := by
  unfold sliceAssign at h
  split at h
  · have h1 := pyIdx_le s l.length
    have h2 := pyIdx_le e l.length
    cases h
    simp only [List.length_append, List.length_take, List.length_drop]
    omega
  · exact absurd h (by simp)

lemma sliceAssignScalar_length (l : Buf) (s e : ℤ) (v : ℚ) :
    (sliceAssignScalar l s e v).length = l.length := by
  unfold sliceAssignScalar
  have h1 := pyIdx_le s l.length
  have h2 := pyIdx_le e l.length
  simp only [List.length_append, List.length_take, List.length_replicate, List.length_drop]
  omega

lemma sliceAdd_length (l : Buf) (start : ℕ) (p : Buf) :
    (sliceAdd l start p).length = l.length := by
  unfold sliceAdd
  simp only [List.length_append, List.length_take, List.length_zipWith, List.length_drop]
  omega

lemma sliceMul_length {l : Buf} {s e : ℤ} {fac out : Buf}
    (h : sliceMul l s e fac = some out) : out.length = l.length := by
  unfold sliceMul at h
  split at h
  · have h1 := pyIdx_le s l.length
    have h2 := pyIdx_le e l.length
    cases h
    simp only [List.length_append, List.length_take, List.length_zipWith, List.length_drop]
    omega
  · exact absurd h (by simp)

lemma kneeAbs_zero (threshold ratio : ℚ) (ht : 0 ≤ threshold) :
    kneeAbs threshold ratio 0 = 0 := by
  unfold kneeAbs
  rw [if_neg (not_lt.2 ht)]

lemma kneeAbs_mono (threshold ratio : ℚ) (hr : 0 < ratio) :
    ∀ u v : ℚ, 0 ≤ u → u ≤ v → kneeAbs threshold ratio u ≤ kneeAbs threshold ratio v := by
  intro u v _ huv
  unfold kneeAbs
  split_ifs with h1 h2 h3
  · have h4 : (u - threshold) / ratio ≤ (v - threshold) / ratio := by gcongr
    linarith
  · linarith
  · have : 0 < (v - threshold) / ratio := div_pos (by linarith) hr
    linarith
  · exact huv

lemma abs_compressSample (threshold ratio x : ℚ) (ht : 0 ≤ threshold) (hr : 0 < ratio) :
    |compressSample threshold ratio x| = kneeAbs threshold ratio |x| := by
  unfold compressSample kneeAbs npSign
  simp only [pyAbs_eq]
  by_cases h : threshold < |x|
  · rw [if_pos h, if_pos h]
    have hc : (0 : ℚ) ≤ threshold + (|x| - threshold) / ratio := by
      have : 0 ≤ (|x| - threshold) / ratio := le_of_lt (div_pos (by linarith) hr)
      linarith
    have hx : x ≠ 0 := by
      intro h0
      rw [h0, abs_zero] at h
      linarith
    rcases hx.lt_or_lt with hneg | hpos
    · rw [if_neg (not_lt.2 hneg.le), if_pos hneg, neg_one_mul, abs_neg, abs_of_nonneg hc]
    · rw [if_pos hpos, one_mul, abs_of_nonneg hc]
  · rw [if_neg h, if_neg h]

lemma peak_compress (threshold ratio : ℚ) (ht : 0 ≤ threshold) (hr : 0 < ratio) (b : Buf) :
    peak (compress threshold ratio b) = kneeAbs threshold ratio (peak b) :=
  peak_map (compressSample threshold ratio) (kneeAbs threshold ratio)
    (kneeAbs_zero threshold ratio ht) (kneeAbs_mono threshold ratio hr)
    (fun x => abs_compressSample threshold ratio x ht hr) b

lemma zipWith_mul_replicate_zero' (k : ℕ) (fac : Buf) :
    List.zipWith (· * ·) (List.replicate k (0 : ℚ)) fac =
      List.replicate (min k fac.length) 0 :=
  zipWith_mul_replicate_zero k fac

lemma sliceMul_replicate_zero (n : ℕ) (s e : ℤ) (fac : Buf)
    (h : pyIdx e n - pyIdx s n = fac.length) :
    sliceMul (List.replicate n (0 : ℚ)) s e fac = some (List.replicate n 0) := by
  have h1 := pyIdx_le s n
  have h2 := pyIdx_le e n
  unfold sliceMul
  rw [List.length_replicate, if_pos h]
  rw [List.take_replicate, List.drop_replicate, List.take_replicate,
    zipWith_mul_replicate_zero, List.drop_replicate]
  rw [← List.replicate_add, ← List.replicate_add]
  congr 2
  omega

lemma sliceAdd_getD (a : Buf) (s : ℕ) (p : Buf) (hs : s + p.length ≤ a.length) (i : ℕ) :
    (sliceAdd a s p).getD i 0 =
      a.getD i 0 + (if s ≤ i ∧ i < s + p.length then p.getD (i - s) 0 else 0) := by
  have htl : (a.take s).length = s := by
    rw [List.length_take]
    omega
  have hbl : (List.zipWith (· + ·) ((a.drop s).take p.length) p).length = p.length := by
    rw [List.length_zipWith, List.length_take, List.length_drop]
    omega
  have hxl : (a.take s ++ List.zipWith (· + ·) ((a.drop s).take p.length) p).length =
      s + p.length := by
    rw [List.length_append, htl, hbl]
  rw [List.getD_eq_getElem?_getD, List.getD_eq_getElem?_getD, List.getD_eq_getElem?_getD]
  unfold sliceAdd
  rcases lt_or_le i s with hc1 | hc1
  · rw [List.getElem?_append]
    simp only [hxl]
    rw [if_pos (by omega)]
    rw [List.getElem?_append]
    simp only [htl]
    rw [if_pos (by omega)]
    rw [List.getElem?_take, if_pos hc1, if_neg (by omega)]
    ring
  · rcases lt_or_le i (s + p.length) with hc2 | hc2
    · rw [List.getElem?_append]
      simp only [hxl]
      rw [if_pos (by omega)]
      rw [List.getElem?_append]
      simp only [htl]
      rw [if_neg (by omega)]
      rw [List.getElem?_zipWith, List.getElem?_take, if_pos (by omega : i - s < p.length)]
      rw [List.getElem?_drop]
      rw [show s + (i - s) = i by omega]
      rw [List.getElem?_eq_getElem (by omega : i < a.length),
        List.getElem?_eq_getElem (by omega : i - s < p.length)]
      rw [if_pos ⟨hc1, hc2⟩]
      simp
    · rw [List.getElem?_append_right (by rw [hxl]; omega)]
      simp only [hxl]
      rw [List.getElem?_drop]
      rw [show s + p.length + (i - (s + p.length)) = i by omega]
      rw [if_neg (by omega)]
      ring

/-- The mix_soundtrack master tail maps an all-zero buffer to an all-zero buffer
of the same length (no error path exists): compression fixes 0, the
normalization divides by the zero peak anyway (0 in the rational model, NaN in
IEEE floats), and the fades multiply zeros. -/
lemma masterChain_replicate_zero (sr : ℚ) (n : ℕ) (hfs : 0 < pyInt (2 * sr))
    (hn : (pyInt (2 * sr)).toNat ≤ n) :
    masterChain sr (List.replicate n 0) = some (List.replicate n 0) := by
  unfold masterChain
  simp only [List.map_replicate]
  norm_num [pyAbs]
  have hin : (List.map (fun x => x ^ 2)
      (linspace 0 1 (pyInt (2 * sr)).toNat)).length = (pyInt (2 * sr)).toNat := by
    rw [List.length_map, linspace_length]
  have hout : (List.map (fun x => x ^ 2)
      (linspace 1 0 (pyInt (2 * sr)).toNat)).length = (pyInt (2 * sr)).toNat := by
    rw [List.length_map, linspace_length]
  rw [sliceMul_replicate_zero n 0 (pyInt (2 * sr)) _ (by
    rw [hin, pyIdx_of_nonneg 0 n (le_refl 0) (by omega),
      pyIdx_of_nonneg (pyInt (2 * sr)) n (by omega) (by omega)]
    omega)]
  rw [Option.some_bind, List.length_replicate]
  rw [sliceMul_replicate_zero n (-(pyInt (2 * sr))) n _ (by
    rw [hout, pyIdx_of_nonneg n n (by omega) (by omega)]
    unfold pyIdx
    rw [if_pos (by omega)]
    omega)]

lemma pyInt_nonneg (q : ℚ) (h : 0 ≤ q) : 0 ≤ pyInt q := by
  unfold pyInt
  rw [if_pos h]
  exact Int.le_floor.2 (by exact_mod_cast h)

lemma sliceAssign_some (l : Buf) (s e : ℤ) (r : Buf)
    (h : pyIdx e l.length - pyIdx s l.length = r.length) :
    ∃ out, sliceAssign l s e r = some out ∧ out.length = l.length := by
  unfold sliceAssign
  rw [if_pos h]
  have h1 := pyIdx_le s l.length
  have h2 := pyIdx_le e l.length
  refine ⟨_, rfl, ?_⟩
  simp only [List.length_append, List.length_take, List.length_drop]
  omega

lemma attackStep_some (as : ℤ) (env : Buf) (h : as ≤ (env.length : ℤ)) :
    ∃ out, attackStep as env = some out ∧ out.length = env.length := by
  unfold attackStep
  split
  · exact sliceAssign_some env 0 as (linspace 0 1 as.toNat) (by
      rw [linspace_length, pyIdx_of_nonneg as env.length (by omega) h,
        pyIdx_of_nonneg 0 env.length (le_refl 0) (by omega)]
      omega)
  · exact ⟨env, rfl, rfl⟩

lemma decayStep_some (as ds : ℤ) (sustain : ℚ) (env : Buf) (ha : 0 ≤ as) :
    ∃ out, decayStep as ds sustain env = some out ∧ out.length = env.length := by
  unfold decayStep
  split
  · split
    · refine sliceAssign_some env as (as + ds) (linspace 1 sustain ds.toNat) ?_
      rw [linspace_length, pyIdx_of_nonneg as env.length ha (by omega),
        pyIdx_of_nonneg (as + ds) env.length (by omega) (by omega)]
      omega
    · exact ⟨env, rfl, rfl⟩
  · exact ⟨env, rfl, rfl⟩

lemma sustainStep_length (as ds ss : ℤ) (sustain : ℚ) (env : Buf) :
    (sustainStep as ds ss sustain env).length = env.length := by
  unfold sustainStep
  dsimp only
  split
  · exact sliceAssignScalar_length _ _ _ _
  · rfl

lemma releaseStep_some (rs : ℤ) (sustain : ℚ) (env : Buf) (h : rs ≤ (env.length : ℤ)) :
    ∃ out, releaseStep rs sustain env = some out ∧ out.length = env.length := by
  unfold releaseStep
  split
  · refine sliceAssign_some env ((env.length : ℤ) - rs) (env.length : ℤ)
      ((linspace sustain 0 rs.toNat).map (fun x => x ^ 2)) ?_
    rw [List.length_map, linspace_length,
      pyIdx_of_nonneg ((env.length : ℤ) - rs) env.length (by omega) (by omega),
      pyIdx_of_nonneg (env.length : ℤ) env.length (by omega) (by omega)]
    omega
  · exact ⟨env, rfl, rfl⟩

/-- When `0 < release_samples ≤ total`, the release phase overwrites exactly the
final `release_samples` entries of the envelope with the squared ramp, whatever
the earlier phases wrote there. -/
lemma releaseStep_tail (rs : ℤ) (sustain : ℚ) (env : Buf) (h0 : 0 < rs)
    (h : rs ≤ (env.length : ℤ)) :
    releaseStep rs sustain env =
      some (env.take (env.length - rs.toNat) ++
        (linspace sustain 0 rs.toNat).map (fun x => x ^ 2)) := by
  have hcond : pyIdx (env.length : ℤ) env.length -
      pyIdx ((env.length : ℤ) - rs) env.length =
      ((linspace sustain 0 rs.toNat).map (fun x => x ^ 2)).length := by
    rw [List.length_map, linspace_length,
      pyIdx_of_nonneg ((env.length : ℤ) - rs) env.length (by omega) (by omega),
      pyIdx_of_nonneg (env.length : ℤ) env.length (by omega) (by omega)]
    omega
  unfold releaseStep
  rw [if_pos h0]
  unfold sliceAssign
  rw [if_pos hcond]
  rw [pyIdx_of_nonneg ((env.length : ℤ) - rs) env.length (by omega) (by omega),
    pyIdx_of_nonneg (env.length : ℤ) env.length (by omega) (by omega)]
  rw [show ((env.length : ℤ) - rs).toNat +
      ((env.length : ℤ).toNat - ((env.length : ℤ) - rs).toNat) = env.length by omega]
  rw [List.drop_length, List.append_nil]
  rw [show ((env.length : ℤ) - rs).toNat = env.length - rs.toNat by omega]

/-- Under non-negative attack, attack and release sample counts bounded by the
buffer length, the ADSR envelope construction succeeds end to end and preserves
the length. -/
lemma adsrEnvelope_some (total : ℕ) (attack decay sustain release : ℚ)
    (ha : 0 ≤ attack)
    (hA : pyInt (attack * SAMPLE_RATE) ≤ (total : ℤ))
    (hR : pyInt (release * SAMPLE_RATE) ≤ (total : ℤ)) :
    ∃ env, adsrEnvelope total attack decay sustain release = some env ∧
      env.length = total := by
  have ha0 : 0 ≤ pyInt (attack * SAMPLE_RATE) :=
    pyInt_nonneg _ (mul_nonneg ha (by norm_num [SAMPLE_RATE]))
  unfold adsrEnvelope
  dsimp only
  obtain ⟨e1, he1, hl1⟩ := attackStep_some (pyInt (attack * SAMPLE_RATE))
    (List.replicate total 1) (by rw [List.length_replicate]; exact hA)
  rw [he1, Option.some_bind]
  obtain ⟨e2, he2, hl2⟩ := decayStep_some (pyInt (attack * SAMPLE_RATE))
    (pyInt (decay * SAMPLE_RATE)) sustain e1 ha0
  rw [he2, Option.some_bind]
  have hl3 : (sustainStep (pyInt (attack * SAMPLE_RATE)) (pyInt (decay * SAMPLE_RATE))
      (max 0 ((total : ℤ) - pyInt (attack * SAMPLE_RATE) - pyInt (decay * SAMPLE_RATE) -
        pyInt (release * SAMPLE_RATE))) sustain e2).length = total := by
    rw [sustainStep_length, hl2, hl1, List.length_replicate]
  obtain ⟨e4, he4, hl4⟩ := releaseStep_some (pyInt (release * SAMPLE_RATE)) sustain _
    (by rw [hl3]; exact hR)
  exact ⟨e4, he4, by rw [hl4, hl3]⟩

/-- For every successful run of the envelope construction, the output has
exactly `total` entries. -/
lemma adsrEnvelope_length {total : ℕ} {attack decay sustain release : ℚ} {env : Buf}
    (h : adsrEnvelope total attack decay sustain release = some env) :
    env.length = total := by
  unfold adsrEnvelope at h
  dsimp only at h
  cases h1 : attackStep (pyInt (attack * SAMPLE_RATE)) (List.replicate total 1) with
  | none => rw [h1, Option.none_bind] at h; exact absurd h (by simp)
  | some e1 =>
    rw [h1, Option.some_bind] at h
    cases h2 : decayStep (pyInt (attack * SAMPLE_RATE)) (pyInt (decay * SAMPLE_RATE))
        sustain e1 with
    | none => rw [h2, Option.none_bind] at h; exact absurd h (by simp)
    | some e2 =>
      rw [h2, Option.some_bind] at h
      have hl1 : e1.length = total := by
        unfold attackStep at h1
        split at h1
        · exact (sliceAssign_length h1).trans (List.length_replicate _ _)
        · cases h1; exact List.length_replicate _ _
      have hl2 : e2.length = total := by
        unfold decayStep at h2
        split at h2
        · split at h2
          · exact (sliceAssign_length h2).trans hl1
          · cases h2; exact hl1
        · cases h2; exact hl1
      have hl3 := sustainStep_length (pyInt (attack * SAMPLE_RATE))
        (pyInt (decay * SAMPLE_RATE))
        (max 0 ((total : ℤ) - pyInt (attack * SAMPLE_RATE) - pyInt (decay * SAMPLE_RATE) -
          pyInt (release * SAMPLE_RATE))) sustain e2
      unfold releaseStep at h
      split at h
      · exact (sliceAssign_length h).trans (hl3.trans hl2)
      · cases h; exact hl3.trans hl2

/-! ## Claim theorems -/

/-- Counterexample to claim C4 as stated: on a concrete all-zero mixed buffer
the render does not fail — the master chain still emits a full-length output
buffer (all zeros in the exact model; NaN from 0/0 in IEEE floats, with only a
RuntimeWarning). -/
theorem silence_error_counterexample :
    masterChain 2 (List.replicate 8 0) = some (List.replicate 8 0) :=
  masterChain_replicate_zero 2 8 (by norm_num [pyInt])
    (by norm_num [pyInt, Int.toNat_ofNat])

/-- Claim C4 (amended): an entirely silent final buffer does not abort the
render and no configuration error is raised: normalization performs the
division by the zero peak anyway and a buffer of the full length is still
emitted (all zeros in the exact-rational model, where x/0 = 0; NaN in IEEE
floats, where numpy emits only a RuntimeWarning). -/
theorem silence_still_emits (sr : ℚ) (n : ℕ) (hfs : 0 < pyInt (2 * sr))
    (hn : (pyInt (2 * sr)).toNat ≤ n) :
    masterChain sr (List.replicate n 0) = some (List.replicate n 0) :=
  masterChain_replicate_zero sr n hfs hn

/-- Witness for C4 (amended) at a concrete input: sample rate 1, an all-zero
four-sample buffer. -/
theorem silence_still_emits_witness :
    0 < pyInt (2 * 1) ∧ (pyInt (2 * 1)).toNat ≤ 4 ∧
    masterChain 1 (List.replicate 4 0) = some (List.replicate 4 0) :=
  ⟨by norm_num [pyInt], by norm_num [pyInt, Int.toNat_ofNat],
    silence_still_emits 1 4 (by norm_num [pyInt]) (by norm_num [pyInt, Int.toNat_ofNat])⟩

/-- Claim C1: soft-knee compression replaces every sample with `|x| > threshold`
by `sign(x) * (threshold + (|x| - threshold) / ratio)` and leaves every sample
with `|x| ≤ threshold` unchanged; a buffer of peak amplitude 0.5 compressed with
threshold 0.3 and ratio 2.0 has peak amplitude 0.4; an all-zero buffer maps to
an all-zero buffer. -/
theorem compression_soft_knee (b : Buf) :
    (∀ threshold ratio x : ℚ, threshold < |x| →
      compressSample threshold ratio x =
        npSign x * (threshold + (|x| - threshold) / ratio)) ∧
    (∀ threshold ratio x : ℚ, |x| ≤ threshold → compressSample threshold ratio x = x) ∧
    (peak b = 1 / 2 → peak (compress (3 / 10) 2 b) = 2 / 5) ∧
    (∀ n : ℕ, compress (3 / 10) 2 (List.replicate n 0) = List.replicate n 0) := by
  refine ⟨?_, ?_, ?_, ?_⟩
  · intro threshold ratio x h
    unfold compressSample
    simp only [pyAbs_eq]
    rw [if_pos h]
  · intro threshold ratio x h
    unfold compressSample
    simp only [pyAbs_eq]
    rw [if_neg (not_lt.2 h)]
  · intro hb
    rw [peak_compress (3 / 10) 2 (by norm_num) (by norm_num) b, hb]
    unfold kneeAbs
    norm_num
  · intro n
    unfold compress
    rw [List.map_replicate]
    norm_num [compressSample, pyAbs, npSign]

/-- Witness for C1 at concrete inputs: the peak-0.5 buffer `[1/2, 1/4]` at
threshold 0.3 and ratio 2 compresses to peak 0.4, and the per-sample formulas
hold at 1/2 (above threshold) and 1/4 (below threshold). -/
theorem compression_soft_knee_witness :
    peak ([1 / 2, 1 / 4] : Buf) = 1 / 2 ∧
    peak (compress (3 / 10) 2 [1 / 2, 1 / 4]) = 2 / 5 ∧
    compressSample (3 / 10) (5 / 2) (1 / 2) =
      npSign (1 / 2) * (3 / 10 + (|(1 / 2 : ℚ)| - 3 / 10) / (5 / 2)) ∧
    compressSample (3 / 10) (5 / 2) (1 / 4) = 1 / 4 := by
  have h := compression_soft_knee [1 / 2, 1 / 4]
  exact ⟨by norm_num [peak, qmax, pyAbs], h.2.2.1 (by norm_num [peak, qmax, pyAbs]),
    h.1 (3 / 10) (5 / 2) (1 / 2) (by rw [abs_of_nonneg] <;> norm_num),
    h.2.1 (3 / 10) (5 / 2) (1 / 4) (by rw [abs_of_nonneg] <;> norm_num)⟩

/-- Claim C2: after peak normalization the peak amplitude equals the target peak
exactly (hence is at most `targetPeak + ε`), for every non-silent buffer and
positive target; and normalization is idempotent — exactly so in the rational
model, with no rounding at all. -/
theorem normalization_peak_idempotent (b : Buf) (targetPeak : ℚ)
    (hb : 0 < peak b) (ht : 0 < targetPeak) :
    peak (normalize b targetPeak) = targetPeak ∧
    normalize (normalize b targetPeak) targetPeak = normalize b targetPeak := by
  have hpk : peak (normalize b targetPeak) = targetPeak := by
    have key : peak (normalize b targetPeak) = peak b / peak b * targetPeak := by
      apply peak_map (fun x => x / peak b * targetPeak) (fun u => u / peak b * targetPeak)
      · simp
      · intro u v _ huv
        gcongr
      · intro x
        rw [abs_mul, abs_div, abs_of_pos hb, abs_of_pos ht]
    rw [key, div_self (ne_of_gt hb), one_mul]
  refine ⟨hpk, ?_⟩
  have step : normalize (normalize b targetPeak) targetPeak =
      (normalize b targetPeak).map
        (fun x => x / peak (normalize b targetPeak) * targetPeak) := rfl
  rw [step]
  simp only [hpk]
  calc (normalize b targetPeak).map (fun x => x / targetPeak * targetPeak)
      = (normalize b targetPeak).map id :=
        List.map_congr_left (fun x _ => div_mul_cancel₀ x (ne_of_gt ht))
    _ = normalize b targetPeak := List.map_id _

/-- Counterexample to claim C3 as stated: on a concrete buffer, the
mix_soundtrack master chain (which normalizes before fading) differs from the
order the claim prescribes (fade after the Dynamics Processor, normalization
final). The spec-order chain is `specMasterChain`. -/
theorem mixer_stage_order_counterexample :
    masterChain (3 / 2) [0, 4, 0, 0, 0, 0] ≠ specMasterChain (3 / 2) [0, 4, 0, 0, 0, 0] := by
  have hp3 : pyInt 3 = 3 := by norm_num [pyInt]
  have ht3 : Int.toNat 3 = 3 := by simp
  have h1 : masterChain (3 / 2) [0, 4, 0, 0, 0, 0] = some [0, 17 / 80, 0, 0, 0, 0] := by
    norm_num [masterChain, compressSample, peak, qmax, pyAbs, npSign, sliceMul, pyIdx,
      hp3, ht3, linspace, List.range_succ]
  have h2 : specMasterChain (3 / 2) [0, 4, 0, 0, 0, 0] = some [0, 17 / 20, 0, 0, 0, 0] := by
    norm_num [specMasterChain, fadeStage, compress, compressSample, normalize, peak, qmax,
      pyAbs, npSign, sliceMul, pyIdx, hp3, ht3, linspace, List.range_succ]
  rw [h1, h2]
  intro hcontra
  simp only [Option.some_inj, List.cons.injEq] at hcontra
  norm_num at hcontra

/-- Claim C3 (amended): in mix_soundtrack.py the master chain is compression,
then peak normalization (master limiting), then the fade — so the fade runs
after normalization and is the final stage; in create_sample_soundtrack.py the
chain is the two compression passes, tanh saturation, then the fade, and peak
normalization is the final stage, as the claim states. -/
theorem mixer_stage_order (sr : ℚ) (b : Buf) (tanhF : ℚ → ℚ) (a : Buf) :
    masterChain sr b = fadeStage sr (normalize (compress (3 / 10) (5 / 2) b) (85 / 100)) ∧
    sampleMasterTail tanhF a =
      (sampleFadeStage (saturateStage tanhF
        (compress (25 / 100) 3 (compress (15 / 100) 6 a)))).map
        (fun m => normalize m (85 / 100)) :=
  ⟨rfl, rfl⟩

/-- Claim C6: whenever the ADSR envelope is successfully constructed and the
release phase is non-trivial (`0 < release_samples ≤ total`), the final
`release_samples` entries of the envelope are exactly the squared release ramp
`linspace(sustain, 0, release_samples)**2` — anchored to the buffer end,
overwriting whatever attack, decay or sustain wrote there, regardless of the
cumulative phase length. -/
theorem release_anchored_to_buffer_end (total : ℕ) (attack decay sustain release : ℚ)
    (ha : 0 ≤ attack)
    (hA : pyInt (attack * SAMPLE_RATE) ≤ (total : ℤ))
    (hr0 : 0 < pyInt (release * SAMPLE_RATE))
    (hR : pyInt (release * SAMPLE_RATE) ≤ (total : ℤ)) :
    ∃ front : Buf,
      adsrEnvelope total attack decay sustain release =
        some (front ++
          (linspace sustain 0 (pyInt (release * SAMPLE_RATE)).toNat).map (fun x => x ^ 2)) ∧
      front.length = total - (pyInt (release * SAMPLE_RATE)).toNat := by
  have ha0 : 0 ≤ pyInt (attack * SAMPLE_RATE) :=
    pyInt_nonneg _ (mul_nonneg ha (by norm_num [SAMPLE_RATE]))
  unfold adsrEnvelope
  dsimp only
  obtain ⟨e1, he1, hl1⟩ := attackStep_some (pyInt (attack * SAMPLE_RATE))
    (List.replicate total 1) (by rw [List.length_replicate]; exact hA)
  rw [he1, Option.some_bind]
  obtain ⟨e2, he2, hl2⟩ := decayStep_some (pyInt (attack * SAMPLE_RATE))
    (pyInt (decay * SAMPLE_RATE)) sustain e1 ha0
  rw [he2, Option.some_bind]
  have hl3 : (sustainStep (pyInt (attack * SAMPLE_RATE)) (pyInt (decay * SAMPLE_RATE))
      (max 0 ((total : ℤ) - pyInt (attack * SAMPLE_RATE) - pyInt (decay * SAMPLE_RATE) -
        pyInt (release * SAMPLE_RATE))) sustain e2).length = total := by
    rw [sustainStep_length, hl2, hl1, List.length_replicate]
  rw [releaseStep_tail (pyInt (release * SAMPLE_RATE)) sustain _ hr0 (by rw [hl3]; exact hR)]
  rw [hl3]
  exact ⟨_, rfl, by rw [List.length_take, hl3]; omega⟩

/-- Witness for C6 at a concrete input: a ten-sample buffer whose phase sample
counts are 4 (attack), 5 (decay) and 6 (release) — the phases overrun the
buffer (4 + 5 + 6 > 10), yet the final 6 envelope entries are the squared
release ramp. -/
theorem release_anchored_to_buffer_end_witness :
    (0 : ℚ) ≤ 4 / 44100 ∧
    pyInt (4 / 44100 * SAMPLE_RATE) ≤ (10 : ℤ) ∧
    0 < pyInt (6 / 44100 * SAMPLE_RATE) ∧
    pyInt (6 / 44100 * SAMPLE_RATE) ≤ (10 : ℤ) ∧
    (∃ front : Buf,
      adsrEnvelope 10 (4 / 44100) (5 / 44100) (7 / 10) (6 / 44100) =
        some (front ++
          (linspace (7 / 10) 0 (pyInt (6 / 44100 * SAMPLE_RATE)).toNat).map (fun x => x ^ 2)) ∧
      front.length = 10 - (pyInt (6 / 44100 * SAMPLE_RATE)).toNat) :=
  ⟨by norm_num, by norm_num [pyInt, SAMPLE_RATE], by norm_num [pyInt, SAMPLE_RATE],
    by norm_num [pyInt, SAMPLE_RATE],
    release_anchored_to_buffer_end 10 (4 / 44100) (5 / 44100) (7 / 10) (6 / 44100)
      (by norm_num) (by norm_num [pyInt, SAMPLE_RATE])
      (by norm_num [pyInt, SAMPLE_RATE]) (by norm_num [pyInt, SAMPLE_RATE])⟩

/-- Counterexample to claim C7 as stated: a two-sample buffer with an attack of
3 samples (attack + decay + release exceeding the buffer) makes the attack slice
assignment fail — numpy raises a broadcast `ValueError` (`none`), the phase is
not clamped. -/
theorem envelope_unclamped_counterexample :
    apply_envelope [1, 1] (3 / 44100) 0 (7 / 10) 0 none = none := by
  have h3 : pyInt (3 / 44100 * SAMPLE_RATE) = 3 := by norm_num [pyInt, SAMPLE_RATE]
  simp only [apply_envelope, adjustLength]
  simp [adsrEnvelope, attackStep, sliceAssign, pyIdx, linspace, h3, Int.toNat_ofNat]

/-- Claim C7 (amended): envelope application is not total in general — the
attack and release sample counts are not clamped (see the counterexample) — but
it is total and in-bounds whenever the attack is non-negative and the attack and
release sample counts fit the (duration-adjusted) buffer: then no phase indexes
or assigns past the bounds, nothing raises, and the output has exactly the
buffer's length. The decay and sustain phases are guarded in the source and
never raise. -/
theorem envelope_total_when_phases_fit (audio : Buf) (attack decay sustain release : ℚ)
    (duration : Option ℚ) (ha : 0 ≤ attack)
    (hA : pyInt (attack * SAMPLE_RATE) ≤ ((adjustLength audio duration).length : ℤ))
    (hR : pyInt (release * SAMPLE_RATE) ≤ ((adjustLength audio duration).length : ℤ)) :
    ∃ out, apply_envelope audio attack decay sustain release duration = some out ∧
      out.length = (adjustLength audio duration).length := by
  obtain ⟨env, henv, hlen⟩ := adsrEnvelope_some (adjustLength audio duration).length
    attack decay sustain release ha hA hR
  unfold apply_envelope
  dsimp only
  rw [henv, Option.map_some']
  refine ⟨_, rfl, ?_⟩
  rw [List.length_zipWith, hlen]
  omega

/-- Witness for C7 (amended) at a concrete input: a five-sample buffer with
attack count 2 and release count 3 (no explicit duration). -/
theorem envelope_total_when_phases_fit_witness :
    (0 : ℚ) ≤ 2 / 44100 ∧
    pyInt (2 / 44100 * SAMPLE_RATE) ≤ ((adjustLength [1, 1, 1, 1, 1] none).length : ℤ) ∧
    pyInt (3 / 44100 * SAMPLE_RATE) ≤ ((adjustLength [1, 1, 1, 1, 1] none).length : ℤ) ∧
    (∃ out, apply_envelope [1, 1, 1, 1, 1] (2 / 44100) 0 (7 / 10) (3 / 44100) none = some out ∧
      out.length = (adjustLength [1, 1, 1, 1, 1] none).length) :=
  ⟨by norm_num, by norm_num [pyInt, SAMPLE_RATE, adjustLength],
    by norm_num [pyInt, SAMPLE_RATE, adjustLength],
    envelope_total_when_phases_fit [1, 1, 1, 1, 1] (2 / 44100) 0 (7 / 10) (3 / 44100) none
      (by norm_num) (by norm_num [pyInt, SAMPLE_RATE, adjustLength])
      (by norm_num [pyInt, SAMPLE_RATE, adjustLength])⟩

/-- Counterexample to claim C10 as stated: with a negative explicit duration
(-1 s) the call does not produce a buffer of `int(duration * 44100) = -44100`
samples — Python's negative slice empties the input and an empty buffer is
returned, so the stated length equation cannot hold (no list has negative
length). -/
theorem duration_negative_counterexample :
    apply_envelope [1] 0 0 (7 / 10) 0 (some (-1)) = some [] ∧
    pyInt ((-1) * SAMPLE_RATE) = -44100 := by
  have hneg : pyInt ((-1) * SAMPLE_RATE) = -44100 := by
    unfold pyInt SAMPLE_RATE
    rw [if_neg (by norm_num)]
    rw [show ((-1 : ℚ) * 44100) = ((-44100 : ℤ) : ℚ) by norm_num, Int.ceil_intCast]
  have h00 : pyInt 0 = 0 := by norm_num [pyInt]
  refine ⟨?_, hneg⟩
  have hadj : adjustLength [1] (some (-1)) = [] := by
    unfold adjustLength
    dsimp only
    rw [hneg, if_pos (by norm_num)]
    unfold pyIdx
    rw [if_pos (by norm_num)]
    norm_num
  unfold apply_envelope
  dsimp only
  rw [hadj]
  simp [adsrEnvelope, attackStep, decayStep, sustainStep, releaseStep, sliceAssignScalar,
    pyIdx, h00]

/-- Claim C10 (amended): for a non-negative explicit duration the
duration-adjustment step truncates a longer input to `int(duration * 44100)`
samples and zero-pads a shorter one to it, before the envelope is applied, and
any buffer the call returns has exactly that many samples. (For negative
durations the claim fails; see the counterexample.) -/
theorem duration_sets_length (audio : Buf) (attack decay sustain release d : ℚ)
    (hd : 0 ≤ d) :
    (adjustLength audio (some d)).length = (pyInt (d * SAMPLE_RATE)).toNat ∧
    adjustLength audio (some d) =
      (if (pyInt (d * SAMPLE_RATE)).toNat < audio.length
       then audio.take (pyInt (d * SAMPLE_RATE)).toNat
       else audio ++ List.replicate ((pyInt (d * SAMPLE_RATE)).toNat - audio.length) 0) ∧
    (∀ out, apply_envelope audio attack decay sustain release (some d) = some out →
      out.length = (pyInt (d * SAMPLE_RATE)).toNat) := by
  have htn : 0 ≤ pyInt (d * SAMPLE_RATE) :=
    pyInt_nonneg _ (mul_nonneg hd (by norm_num [SAMPLE_RATE]))
  have hadj : adjustLength audio (some d) =
      (if (pyInt (d * SAMPLE_RATE)).toNat < audio.length
       then audio.take (pyInt (d * SAMPLE_RATE)).toNat
       else audio ++ List.replicate ((pyInt (d * SAMPLE_RATE)).toNat - audio.length) 0) := by
    unfold adjustLength
    dsimp only
    rcases lt_or_le (pyInt (d * SAMPLE_RATE)) (audio.length : ℤ) with hlt | hle
    · rw [if_pos hlt, if_pos (by omega)]
      rw [pyIdx_of_nonneg _ _ htn hlt.le]
    · rw [if_neg (by omega), if_neg (by omega)]
  have hlen : (adjustLength audio (some d)).length = (pyInt (d * SAMPLE_RATE)).toNat := by
    rw [hadj]
    split_ifs with hc
    · rw [List.length_take]
      omega
    · rw [List.length_append, List.length_replicate]
      omega
  refine ⟨hlen, hadj, ?_⟩
  intro out hout
  unfold apply_envelope at hout
  dsimp only at hout
  cases henv : adsrEnvelope (adjustLength audio (some d)).length attack decay sustain release with
  | none => rw [henv] at hout; exact absurd hout (by simp)
  | some env =>
    rw [henv, Option.map_some'] at hout
    have hz := Option.some.inj hout
    rw [← hz, List.length_zipWith, adsrEnvelope_length henv, hlen]
    omega

/-- Witness for C10 (amended) at a concrete input: a three-sample buffer with an
explicit duration of two samples' worth of seconds is truncated to length
`int(duration * 44100) = 2`. -/
theorem duration_sets_length_witness :
    (0 : ℚ) ≤ 2 / 44100 ∧
    (adjustLength [1, 2, 3] (some (2 / 44100))).length =
      (pyInt (2 / 44100 * SAMPLE_RATE)).toNat :=
  ⟨by norm_num,
    (duration_sets_length [1, 2, 3] 0 0 (7 / 10) 0 (2 / 44100) (by norm_num)).1⟩

/-- Counterexample to claim C5 as stated: an event starting at sample 1 with a
five-sample payload against a three-sample buffer is dropped entirely by the
synth layer composers (`scheduleNote`, the policy of generate_melody_layer.py
lines 44-47) — the buffer is unchanged — whereas the truncate-and-accumulate
policy the claim describes (`accumulateSample`, create_sample_soundtrack.py
lines 273-274) would produce `[0, 1, 1]`. -/
theorem event_overrun_counterexample :
    scheduleNote [0, 0, 0] 1 [1, 1, 1, 1, 1] = [0, 0, 0] ∧
    accumulateSample [0, 0, 0] 1 [1, 1, 1, 1, 1] = [0, 1, 1] ∧
    ([0, 0, 0] : Buf) ≠ [0, 1, 1] := by
  refine ⟨?_, ?_, ?_⟩
  · norm_num [scheduleNote]
  · norm_num [accumulateSample, sliceAdd]
  · intro hcontra
    simp only [List.cons.injEq] at hcontra
    norm_num at hcontra

/-- Claim C5 (amended): the two composers disagree on overruns. The synth layer
composers (melody/atmosphere/effects) skip an event entirely — with no error —
when `start + duration` reaches past or even exactly to the buffer end; only the
sample-based composer of create_sample_soundtrack.py truncates the copy at the
buffer end and still accumulates the surviving prefix additively (length
preserved, every in-range sample added at its offset). -/
theorem event_overrun_policy :
    (∀ (audio : Buf) (start : ℕ) (payload : Buf),
      audio.length ≤ start + payload.length → scheduleNote audio start payload = audio) ∧
    (∀ (audio : Buf) (start : ℕ) (sample : Buf),
      (accumulateSample audio start sample).length = audio.length) ∧
    (∀ (audio : Buf) (start : ℕ) (sample : Buf), start ≤ audio.length →
      accumulateSample audio start sample =
        sliceAdd audio start (sample.take (audio.length - start))) ∧
    (∀ (audio : Buf) (start : ℕ) (payload : Buf) (i : ℕ),
      start + payload.length ≤ audio.length →
      (sliceAdd audio start payload).getD i 0 =
        audio.getD i 0 +
          (if start ≤ i ∧ i < start + payload.length then payload.getD (i - start) 0 else 0)) := by
  refine ⟨?_, ?_, ?_, ?_⟩
  · intro audio start payload h
    unfold scheduleNote
    rw [if_neg (by omega)]
  · intro audio start sample
    unfold accumulateSample
    rw [sliceAdd_length]
  · intro audio start sample h
    unfold accumulateSample
    dsimp only
    rcases le_or_lt (start + sample.length) audio.length with hle | hlt
    · rw [min_eq_left hle]
      congr 1
      rw [show start + sample.length - start = sample.length by omega, List.take_length,
        List.take_of_length_le (by omega)]
    · rw [min_eq_right hlt.le]
  · intro audio start payload i h
    exact sliceAdd_getD audio start payload h i

/-- Witness for C5 (amended) at concrete inputs: an exactly-fitting event is
still skipped by `scheduleNote`; `accumulateSample` truncates `[7, 7]` at a
two-sample buffer; and `sliceAdd` adds pointwise inside the bounds. -/
theorem event_overrun_policy_witness :
    scheduleNote [5, 5] 1 [7, 7] = [5, 5] ∧
    (accumulateSample [5, 5] 1 [7, 7]).length = ([5, 5] : Buf).length ∧
    accumulateSample [5, 5] 1 [7, 7] = sliceAdd [5, 5] 1 ([7, 7].take 1) ∧
    (sliceAdd [9, 9, 9] 1 [4]).getD 1 0 =
      ([9, 9, 9] : Buf).getD 1 0 +
        (if 1 ≤ 1 ∧ 1 < 1 + ([4] : Buf).length then ([4] : Buf).getD (1 - 1) 0 else 0) := by
  have h := event_overrun_policy
  exact ⟨h.1 [5, 5] 1 [7, 7] (by norm_num),
    h.2.1 [5, 5] 1 [7, 7],
    by
      have h3 := h.2.2.1 [5, 5] 1 [7, 7] (by norm_num)
      simpa using h3,
    h.2.2.2 [9, 9, 9] 1 [4] 1 (by norm_num)⟩

/-- Claim C9: the atmosphere and effects renders reseed numpy's global PRNG
explicitly (`np.random.seed(123)` / `np.random.seed(456)`), so their output does
not depend on the incoming PRNG state: two invocations with the same parameters
— whatever states they start from — produce identical buffers, sample for
sample. -/
theorem noise_layers_reseed_deterministic
    (windLowFilt windHighFilt rustleFilt crackleFilt gobbleFilt stepFilt : Buf → Buf)
    (sinF expF : ℚ → ℚ) (pi duration sample_rate : ℚ) (rng1 rng2 : ℕ) :
    generate_atmosphere_layer windLowFilt windHighFilt rustleFilt crackleFilt
        sinF expF pi duration sample_rate rng1 =
      generate_atmosphere_layer windLowFilt windHighFilt rustleFilt crackleFilt
        sinF expF pi duration sample_rate rng2 ∧
    generate_effects_layer gobbleFilt stepFilt sinF expF pi duration sample_rate rng1 =
      generate_effects_layer gobbleFilt stepFilt sinF expF pi duration sample_rate rng2 :=
  ⟨rfl, rfl⟩

/-- Counterexample to claim C8 as stated: rendering a tone at frequency 0 (a
frequency ≤ 0) does not fail at all — `expressive_tone` silently returns a
well-formed all-zero buffer (here over three sample times, with `np.sin`
modelled by the identity, which agrees with `sin` at the only point evaluated,
0). -/
theorem tone_zero_frequency_counterexample :
    expressive_tone (fun x => x) 3 [0, 1, 2] 0 5 (8 / 1000) = [0, 0, 0] := by
  norm_num [expressive_tone, cumsum, cumsumFrom]

/-- Claim C8 (amended): there is no validation of frequency or sample rate in
the oscillator: for frequency 0, `expressive_tone` silently returns the
all-zero buffer of full length — for every vibrato setting, every `np.pi`
value and every model of `np.sin` that sends 0 to 0 — instead of failing
fast. -/
theorem tone_zero_frequency_silent (sinF : ℚ → ℚ) (pi vibrato_rate vibrato_depth : ℚ)
    (t : Buf) (h : sinF 0 = 0) :
    expressive_tone sinF pi t 0 vibrato_rate vibrato_depth = List.replicate t.length 0 := by
  have hmod : ∀ l : Buf, l.map (fun v => (0 : ℚ) * v) = List.replicate l.length 0 := by
    intro l
    induction l with
    | nil => rfl
    | cons x xs ih => simp [List.replicate_succ, ih]
  unfold expressive_tone
  dsimp only
  rw [hmod]
  simp only [List.length_map, List.map_replicate, mul_zero, zero_div]
  rw [cumsum_replicate_zero]
  simp only [List.map_replicate]
  simp [h]

/-- Witness for C8 (amended) at a concrete input: the identity as the sin model
(it sends 0 to 0), pi modelled as 3, three sample times. -/
theorem tone_zero_frequency_silent_witness :
    (fun x : ℚ => x) 0 = 0 ∧
    expressive_tone (fun x : ℚ => x) 3 [0, 1, 2] 0 5 (8 / 1000) =
      List.replicate ([0, 1, 2] : Buf).length 0 :=
  ⟨rfl, tone_zero_frequency_silent (fun x => x) 3 5 (8 / 1000) [0, 1, 2] rfl⟩

/-- Witness for C2 at a concrete input: the buffer `[1/2, 1/4]` (non-silent)
normalized to target 0.85. -/
theorem normalization_peak_idempotent_witness :
    0 < peak ([1 / 2, 1 / 4] : Buf) ∧ 0 < (17 / 20 : ℚ) ∧
    peak (normalize [1 / 2, 1 / 4] (17 / 20)) = 17 / 20 ∧
    normalize (normalize [1 / 2, 1 / 4] (17 / 20)) (17 / 20) =
      normalize [1 / 2, 1 / 4] (17 / 20) := by
  have h := normalization_peak_idempotent [1 / 2, 1 / 4] (17 / 20)
    (by norm_num [peak, qmax, pyAbs]) (by norm_num)
  exact ⟨by norm_num [peak, qmax, pyAbs], by norm_num, h.1, h.2⟩

end Soundtrack
